import Mathlib

/-!
Verification of the insurance-risk dashboard pipeline (`app.py`).

The pandas `DataFrame` is embedded as a column-oriented table: a row count
together with an ordered association list from column names to columns of
cell values.  A cell is either a rational number, a missing numeric value
(`NaN`), or a string.  The pipeline stages of the source (label derivation,
median / "Unknown" imputation, date expansion, segmentation feature
selection, one-hot encoding, train/test balancing, the model-persistence
gate, and schema alignment of ad hoc inputs) are translated below, and the
spec's testable properties are proved about these translations.
-/

namespace InsuranceDashboard

/-- A cell of the table: a numeric value, a missing numeric value (pandas
`NaN`), or a string (pandas `object` cell). -/
inductive Val : Type
  | num : ℚ → Val
  | nan : Val
  | str : String → Val
  deriving DecidableEq

def Val.isNan : Val → Bool
  | .nan => true
  | _ => false

def Val.isNum : Val → Bool
  | .num _ => true
  | _ => false

def Val.isStr : Val → Bool
  | .str _ => true
  | _ => false

/-- A cell belongs to a numeric (`int64`/`float64`) column: number or `NaN`. -/
def Val.numOrNan (v : Val) : Bool := v.isNum || v.isNan

/-- Column-oriented embedding of a pandas `DataFrame`: the row count and the
ordered list of (column name, column values) pairs. -/
structure Df where
  nrows : ℕ
  cols : List (String × List Val)
  deriving DecidableEq

/-- The column names, in order (`df.columns`). -/
def keys (df : Df) : List String := df.cols.map Prod.fst

/-- Membership test `c in df.columns`. -/
def hasCol (df : Df) (c : String) : Bool := df.cols.any (fun p => decide (p.1 = c))

/-- The values of column `c`, when present (first occurrence). -/
def getCol? (df : Df) (c : String) : Option (List Val) :=
  (df.cols.find? (fun p => decide (p.1 = c))).map Prod.snd

/-- The values of column `c`, defaulting to an all-`NaN` column. -/
def getColD (df : Df) (c : String) : List Val :=
  (getCol? df c).getD (List.replicate df.nrows Val.nan)

/-- Assignment `df[c] = vs`: replace the column if the name exists, else append it. -/
def setCol (df : Df) (c : String) (vs : List Val) : Df :=
  if hasCol df c then
    { nrows := df.nrows, cols := df.cols.map (fun p => if p.1 = c then (c, vs) else p) }
  else
    { nrows := df.nrows, cols := df.cols ++ [(c, vs)] }

/-- Pandas `df.drop(columns=names)`: remove every column whose name is in `names`. -/
def dropCols (df : Df) (names : List String) : Df :=
  { nrows := df.nrows, cols := df.cols.filter (fun p => decide (p.1 ∉ names)) }

/-- Apply a column-wise transformation to every column, keeping names. -/
def mapVals (g : String → List Val → List Val) (df : Df) : Df :=
  { nrows := df.nrows, cols := df.cols.map (fun p => (p.1, g p.1 p.2)) }

/-- Keep only the columns satisfying a predicate (e.g. `select_dtypes`). -/
def filterCols (P : String × List Val → Bool) (df : Df) : Df :=
  { nrows := df.nrows, cols := df.cols.filter P }

/-- Every column has exactly `nrows` entries. -/
def Df.WF (df : Df) : Prop := ∀ p ∈ df.cols, p.2.length = df.nrows

/-- The numeric entries of a column, skipping `NaN` and strings (pandas
numeric reductions skip missing values). -/
def numsOf (vs : List Val) : List ℚ := vs.filterMap (fun v =>
  match v with
  | .num q => some q
  | _ => none)

def sortQ (xs : List ℚ) : List ℚ := List.insertionSort (· ≤ ·) xs

/-- Pandas `Series.quantile(0.75)` with the default linear interpolation, over the
non-missing values; `NaN` (here `none`) on an empty column. -/
def quantile75 (xs : List ℚ) : Option ℚ :=
  let s := sortQ xs
  if s.length = 0 then none
  else
    let m := s.length - 1
    let j := 3 * m / 4
    let base := s.getD j 0
    let next := s.getD (j + 1) base
    some (base + (next - base) * ((3 * m % 4 : ℕ) / 4 : ℚ))

/-- Pandas `Series.median()` over the non-missing values; `NaN` on an empty column. -/
def medianQ (xs : List ℚ) : Option ℚ :=
  if (sortQ xs).length = 0 then none
  else if (sortQ xs).length % 2 = 1 then some ((sortQ xs).getD ((sortQ xs).length / 2) 0)
  else some
    (((sortQ xs).getD ((sortQ xs).length / 2 - 1) 0 + (sortQ xs).getD ((sortQ xs).length / 2) 0) / 2)

/-- The pandas comparison `v >= q`: `False` whenever either side is missing
or the cell is not numeric. -/
def geOptVal (v : Val) (q : Option ℚ) : Bool :=
  match v, q with
  | .num a, some b => decide (b ≤ a)
  | _, _ => false

/-- One entry of `(df['claim_amount_SZL'] >= quantile).astype(int)`. -/
def riskVal (q : Option ℚ) (v : Val) : Val :=
  if geOptVal v q then Val.num 1 else Val.num 0

/-- Line 70: `df['claim_risk'] = (df['claim_amount_SZL'] >=
df['claim_amount_SZL'].quantile(0.75)).astype(int)`, on the raw column. -/
def deriveClaimRisk (df : Df) : Df :=
  let amts := getColD df "claim_amount_SZL"
  setCol df "claim_risk" (amts.map (riskVal (quantile75 (numsOf amts))))

/-- A column of numeric dtype: every cell is a number or `NaN`. -/
def isNumericSeries (vs : List Val) : Bool := vs.all Val.numOrNan

/-- Fill a missing numeric cell with the given value (no-op when the fill
value itself is missing, as `fillna` skips `NaN` fill values). -/
def fillNan (m : Option ℚ) (v : Val) : Val :=
  match v, m with
  | .nan, some q => Val.num q
  | _, _ => v

/-- Line 71: `df.fillna(df.median(numeric_only=True), inplace=True)`. -/
def fillnaMedian (df : Df) : Df :=
  mapVals (fun _ vs =>
    if isNumericSeries vs then vs.map (fillNan (medianQ (numsOf vs))) else vs) df

def unknownVal (v : Val) : Val := if v.isNan then Val.str "Unknown" else v

/-- Line 72: `df.fillna('Unknown', inplace=True)`. -/
def fillnaUnknown (df : Df) : Df := mapVals (fun _ vs => vs.map unknownVal) df

/-- Lines 69-72: derive the label from the raw claim-amount column, then
impute numeric medians, then impute `'Unknown'`. -/
def preprocess (df : Df) : Df := fillnaUnknown (fillnaMedian (deriveClaimRisk df))

/-- Lines 125-129: the model-persistence gate.  Returns the serialized
artifact (if any) and the in-memory model, which is kept either way. -/
def evalAndPersist {μ : Type} (model : μ) (recallClass1 : ℚ) : Option μ × μ :=
  (if (39 : ℚ) / 100 < recallClass1 then some model else none, model)

def dateColNames : List String := ["policy_start_date", "claim_date"]

/-- Lines 76-82, one iteration: parse the date column (`parse` abstracts
`pd.to_datetime` followed by `.dt.year/.month/.day`), add the three derived
integer columns, and drop the original column. -/
def dateDerivedCols (parse : Val → ℚ × ℚ × ℚ) (c : String) (df : Df) : Df :=
  dropCols
    (setCol
      (setCol
        (setCol df (c ++ "_year") ((getColD df c).map (fun v => Val.num (parse v).1)))
        (c ++ "_month") ((getColD df c).map (fun v => Val.num (parse v).2.1)))
      (c ++ "_day") ((getColD df c).map (fun v => Val.num (parse v).2.2)))
    [c]

/-- Line 77: the date column is expanded only when present. -/
def processDateCol (parse : Val → ℚ × ℚ × ℚ) (c : String) (df : Df) : Df :=
  if hasCol df c then dateDerivedCols parse c df else df

/-- Lines 75-82: process `policy_start_date`, then `claim_date`. -/
def dateStage (parse : Val → ℚ × ℚ × ℚ) (df : Df) : Df :=
  processDateCol parse "claim_date" (processDateCol parse "policy_start_date" df)

/-- A column of dtype `int64`/`float64` after imputation: all cells numeric. -/
def isIntFloatSeries (vs : List Val) : Bool := vs.all Val.isNum

/-- Line 85: `df.select_dtypes(include=['int64', 'float64'])`. -/
def numericSel (df : Df) : Df := filterCols (fun p => isIntFloatSeries p.2) df

/-- Line 86: `X_segment = df[numeric_cols].drop(columns=['claim_risk'],
errors='ignore')` - the clustering feature space. -/
def Xsegment (df : Df) : Df := dropCols (numericSel df) ["claim_risk"]

/-- Lines 87-88: fit the seeded clustering on `Xsegment` (`km` abstracts the
seeded `KMeans(n_clusters=4, random_state=42).fit_predict`) and store the
stringified segment ids as a new column. -/
def segStage (km : Df → List ℕ) (df : Df) : Df :=
  setCol df "customer_segment" ((km (Xsegment df)).map (fun k => Val.str (toString k)))

def baseCategoricalCols : List String :=
  ["claim_type", "gender", "location", "policy_type", "insurance_provider",
   "customer_segment"]

/-- A column of `object` dtype: it holds at least one string cell. -/
def isObjectSeries (vs : List Val) : Bool := vs.any Val.isStr

/-- Lines 89-93: the hard-coded categorical list, extended with every other
object column that is not a date column nor `claim_amount_SZL`/`claim_risk`
and not already listed. -/
def categoricalCols (df : Df) : List String :=
  df.cols.foldl
    (fun acc p =>
      if isObjectSeries p.2 && decide (p.1 ∉ dateColNames) &&
          decide (p.1 ≠ "claim_amount_SZL") && decide (p.1 ≠ "claim_risk") &&
          decide (p.1 ∉ acc)
      then acc ++ [p.1] else acc)
    baseCategoricalCols

def valName : Val → String
  | .num q => toString q
  | .nan => "nan"
  | .str s => s

/-- The one-hot block for one categorical column: one 0/1 column per
distinct non-missing value (`get_dummies` produces no column for `NaN`). -/
def dummyColsFor (df : Df) (c : String) : List (String × List Val) :=
  let vs := getColD df c
  (vs.dedup.filter (fun v => !v.isNan)).map
    (fun v => (c ++ "_" ++ valName v, vs.map (fun w => if w = v then Val.num 1 else Val.num 0)))

/-- Line 94: `pd.get_dummies(df, columns=categorical_cols,
drop_first=False)`: non-encoded columns keep their order, the one-hot
blocks follow. -/
def getDummies (df : Df) (cats : List String) : Df :=
  { nrows := df.nrows,
    cols := df.cols.filter (fun p => decide (p.1 ∉ cats)) ++
      List.foldr (fun c acc => dummyColsFor df c ++ acc) [] cats }

/-- Lines 69-94: preprocessing, date expansion, segmentation, encoding. -/
def encodeStage (parse : Val → ℚ × ℚ × ℚ) (km : Df → List ℕ) (df : Df) : Df :=
  let d := segStage km (dateStage parse (preprocess df))
  getDummies d (categoricalCols d)

/-- Line 97: `X = df_encoded.drop(columns=['claim_amount_SZL', 'claim_risk'])`. -/
def supervisedX (parse : Val → ℚ × ℚ × ℚ) (km : Df → List ℕ) (df : Df) : Df :=
  dropCols (encodeStage parse km df) ["claim_amount_SZL", "claim_risk"]

def labelOfVal (v : Val) : ℕ := if v = Val.num 1 then 1 else 0

/-- The record set as a list of rows (for the row-wise split/balance steps). -/
def rowsOf (df : Df) : List (List Val) :=
  (List.range df.nrows).map (fun i => df.cols.map (fun p => p.2.getD i Val.nan))

/-- Line 99 `train_test_split`, abstracted by its seeded test-membership
mask: entry `i` of the mask is `true` when row `i` goes to the test split. -/
def splitByMask {α : Type} (mask : List Bool) (xs : List α) : List α × List α :=
  (((xs.zip mask).filter (fun q => !q.2)).map Prod.fst,
   ((xs.zip mask).filter (fun q => q.2)).map Prod.fst)

/-- Line 101: `majority = train_data[train_data.claim_risk == 0]`; a train
row is its feature cells paired with its `claim_risk` label. -/
def majorityRows (td : List (List Val × ℕ)) : List (List Val × ℕ) :=
  td.filter (fun r => decide (r.2 = 0))

/-- Line 102: `minority = train_data[train_data.claim_risk == 1]`. -/
def minorityRows (td : List (List Val × ℕ)) : List (List Val × ℕ) :=
  td.filter (fun r => decide (r.2 = 1))

/-- Line 103: `resample(minority, replace=True, n_samples=n,
random_state=42)`; `pick` abstracts the seeded uniform draws. -/
def resampleWith (pick : ℕ → ℕ) (n : ℕ) (xs : List (List Val × ℕ)) :
    List (List Val × ℕ) :=
  (List.range n).map (fun i => xs.getD (pick i % xs.length) ([], 0))

/-- Lines 100-104: the balanced training set `majority + oversampled
minority`. -/
def balanceTrainData (pick : ℕ → ℕ) (td : List (List Val × ℕ)) :
    List (List Val × ℕ) :=
  majorityRows td ++ resampleWith pick (majorityRows td).length (minorityRows td)

/-- The four split variables of line 99. -/
structure SplitState where
  Xtrain : List (List Val)
  Xtest : List (List Val)
  ytrain : List ℕ
  ytest : List ℕ
  deriving DecidableEq

/-- The variables live after line 106. -/
structure BalancedState where
  XtrainBalanced : List (List Val)
  ytrainBalanced : List ℕ
  Xtest : List (List Val)
  ytest : List ℕ
  deriving DecidableEq

/-- Lines 100-106: concatenate train features and labels, balance, and split
the balanced frame back into features and labels; the test split is not an
input of any of these statements. -/
def balanceStage (pick : ℕ → ℕ) (s : SplitState) : BalancedState :=
  let td := s.Xtrain.zip s.ytrain
  let bal := balanceTrainData pick td
  { XtrainBalanced := bal.map Prod.fst, ytrainBalanced := bal.map Prod.snd,
    Xtest := s.Xtest, ytest := s.ytest }

/-- Metric `classification_report(...)['1']['recall']`: true positives over actual
positives (0 when there are no actual positives). -/
def recallPos (yTrue yPred : List ℕ) : ℚ :=
  let pairs := yTrue.zip yPred
  let tp := (pairs.filter (fun p => decide (p.1 = 1 ∧ p.2 = 1))).length
  let fn := (pairs.filter (fun p => decide (p.1 = 1 ∧ p.2 ≠ 1))).length
  if tp + fn = 0 then 0 else (tp : ℚ) / (tp + fn)

/-- What one training run exposes: the encoded column schema and the
positive-class recall on the held-out split. -/
structure PipelineOut where
  schema : List String
  recallClass1 : ℚ
  deriving DecidableEq

/-- Lines 85-122 as one function of the input data and of the seeded
components: `km` the seeded clustering, `mask` the seeded test-split mask,
`pick` the seeded oversampling draws, `trainPredict` the seeded
random-forest fit-then-predict. -/
def runPipeline (parse : Val → ℚ × ℚ × ℚ) (km : Df → List ℕ)
    (mask : ℕ → List Bool) (pick : ℕ → ℕ)
    (trainPredict : List (List Val × ℕ) → List (List Val) → List ℕ)
    (df : Df) : PipelineOut :=
  let denc := encodeStage parse km df
  let X := dropCols denc ["claim_amount_SZL", "claim_risk"]
  let y := (getColD denc "claim_risk").map labelOfVal
  let pairs := (rowsOf X).zip y
  let m := mask df.nrows
  let tr := (splitByMask m pairs).1
  let te := (splitByMask m pairs).2
  let bal := balanceTrainData pick tr
  let preds := trainPredict bal (te.map Prod.fst)
  { schema := keys denc, recallClass1 := recallPos (te.map Prod.snd) preds }

/-- Lines 238-240: `for col in expected_features: if col not in
input_df_encoded.columns: input_df_encoded[col] = 0`. -/
def addMissing (df : Df) (S : List String) : Df :=
  S.foldl
    (fun d c =>
      if hasCol d c then d
      else { nrows := d.nrows, cols := d.cols ++ [(c, List.replicate d.nrows (Val.num 0))] })
    df

/-- Line 241: `input_df_encoded = input_df_encoded[expected_features]`. -/
def selectCols (df : Df) (S : List String) : Df :=
  { nrows := df.nrows, cols := S.map (fun c => (c, getColD df c)) }

/-- Lines 238-241: align an encoded record set to the trained schema. -/
def align (df : Df) (S : List String) : Df := selectCols (addMissing df S) S

/-! ### Association-list lemmas about the column operations -/

theorem find?_replace_self (l : List (String × List Val)) (c : String) (vs : List Val)
    (h : l.any (fun p => decide (p.1 = c)) = true) :
    (l.map (fun p => if p.1 = c then (c, vs) else p)).find? (fun p => decide (p.1 = c)) =
      some (c, vs) := by
  induction l with
  | nil => simp at h
  | cons hd tl ih =>
    by_cases hc : hd.1 = c
    · simp only [List.map_cons, if_pos hc]
      exact List.find?_cons_of_pos _ (by simp)
    · simp only [List.any_cons, Bool.or_eq_true, decide_eq_true_eq] at h
      rcases h with h | h
      · exact absurd h hc
      · simp only [List.map_cons, if_neg hc]
        rw [List.find?_cons_of_neg _ (by simp [hc])]
        exact ih h

theorem find?_append_of_none {α : Type} {p : α → Bool} {l₁ l₂ : List α}
    (h : l₁.find? p = none) : (l₁ ++ l₂).find? p = l₂.find? p := by
  rw [List.find?_append, h, Option.none_or]

theorem getCol?_setCol_self (df : Df) (c : String) (vs : List Val) :
    getCol? (setCol df c vs) c = some vs := by
  unfold setCol
  by_cases h : hasCol df c = true
  · rw [if_pos h]
    simp only [getCol?]
    rw [find?_replace_self df.cols c vs h]
    rfl
  · rw [if_neg h]
    simp only [getCol?]
    have hnone : df.cols.find? (fun p => decide (p.1 = c)) = none := by
      rw [List.find?_eq_none]
      intro x hx
      simp only [Bool.not_eq_true, decide_eq_false_iff_not]
      intro hxc
      exact h (List.any_eq_true.mpr ⟨x, hx, by simp [hxc]⟩)
    rw [find?_append_of_none hnone]
    simp

theorem find?_replace_ne (l : List (String × List Val)) (c c' : String) (vs : List Val)
    (h : c ≠ c') :
    ((l.map (fun p => if p.1 = c' then (c', vs) else p)).find?
        (fun p => decide (p.1 = c))).map Prod.snd =
      (l.find? (fun p => decide (p.1 = c))).map Prod.snd := by
  induction l with
  | nil => simp
  | cons hd tl ih =>
    cases hd with
    | mk k w =>
      by_cases hc' : k = c'
      · subst hc'
        have hne : ¬ (k = c) := fun hkc => h (hkc ▸ rfl)
        simpa [List.find?_cons, hne] using ih
      · by_cases hk : k = c
        · have h1 : ((k, w) :: tl).find? (fun p => decide (p.1 = c)) = some (k, w) := by
            apply List.find?_cons_of_pos
            simp [hk]
          have h2 : (((k, w) :: tl).map (fun p => if p.1 = c' then (c', vs) else p)).find?
              (fun p => decide (p.1 = c)) = some (k, w) := by
            simp only [List.map_cons]
            rw [if_neg hc']
            apply List.find?_cons_of_pos
            simp [hk]
          rw [h1, h2]
        · simpa [List.find?_cons, hc', hk, -List.find?_map] using ih

theorem getCol?_setCol_ne (df : Df) (c c' : String) (vs : List Val) (h : c ≠ c') :
    getCol? (setCol df c' vs) c = getCol? df c := by
  unfold setCol
  by_cases hh : hasCol df c' = true
  · rw [if_pos hh]
    simp only [getCol?]
    exact find?_replace_ne df.cols c c' vs h
  · rw [if_neg hh]
    simp only [getCol?]
    have hsingle : [(c', vs)].find? (fun p => decide (p.1 = c)) = none := by
      simp [Ne.symm h]
    rw [List.find?_append, hsingle, Option.or_none]

theorem getCol?_mapVals (g : String → List Val → List Val) (df : Df) (c : String) :
    getCol? (mapVals g df) c = (getCol? df c).map (g c) := by
  unfold mapVals getCol?
  simp only []
  induction df.cols with
  | nil => simp
  | cons hd tl ih =>
    cases hd with
    | mk k w =>
      by_cases hk : k = c
      · subst hk
        simp only [List.map_cons, List.find?_cons, show decide ((k, g k w).1 = k) = true by simp,
          show decide ((k, w).1 = k) = true by simp]
        rfl
      · simp only [List.map_cons, List.find?_cons,
          show decide ((k, g k w).1 = c) = false by simp [hk],
          show decide ((k, w).1 = c) = false by simp [hk]]
        exact ih

theorem find?_filter_key (l : List (String × List Val)) (P : String × List Val → Bool)
    (c : String) (u : List Val)
    (h : (l.find? (fun p => decide (p.1 = c))).map Prod.snd = some u)
    (hP : P (c, u) = true) :
    ((l.filter P).find? (fun p => decide (p.1 = c))).map Prod.snd = some u := by
  induction l with
  | nil => simp at h
  | cons hd tl ih =>
    cases hd with
    | mk k w =>
      by_cases hk : k = c
      · subst hk
        simp only [List.find?_cons, show decide ((k, w).1 = k) = true by simp] at h
        have hw : w = u := by simpa using h
        subst hw
        simp [List.filter_cons, hP, List.find?_cons]
      · simp only [List.find?_cons, show decide ((k, w).1 = c) = false by simp [hk]] at h
        simp only [List.filter_cons]
        cases hPk : P (k, w) with
        | true => simpa [List.find?_cons, hk] using ih h
        | false => simpa using ih h

theorem getCol?_filterCols (P : String × List Val → Bool) (df : Df) (c : String)
    (u : List Val) (h : getCol? df c = some u) (hP : P (c, u) = true) :
    getCol? (filterCols P df) c = some u := by
  unfold filterCols getCol? at *
  simp only [] at h ⊢
  exact find?_filter_key df.cols P c u h hP

theorem getCol?_dropCols (df : Df) (names : List String) (c : String) (u : List Val)
    (h : getCol? df c = some u) (hn : c ∉ names) :
    getCol? (dropCols df names) c = some u :=
  getCol?_filterCols (fun p => decide (p.1 ∉ names)) df c u h (by simp [hn])

theorem hasCol_of_getCol?_eq_some (df : Df) (c : String) (u : List Val)
    (h : getCol? df c = some u) : hasCol df c = true := by
  unfold getCol? at h
  cases hf : df.cols.find? (fun p => decide (p.1 = c)) with
  | none => rw [hf] at h; simp at h
  | some entry =>
    have hpred := List.find?_some hf
    exact List.any_eq_true.mpr ⟨entry, List.mem_of_find?_eq_some hf, hpred⟩

theorem not_hasCol_dropCols (df : Df) (names : List String) (c : String)
    (hc : c ∈ names) : hasCol (dropCols df names) c = false := by
  unfold hasCol dropCols
  simp only []
  rw [Bool.eq_false_iff]
  intro htrue
  rcases List.any_eq_true.mp htrue with ⟨p, hp, hpc⟩
  rcases List.mem_filter.mp hp with ⟨_, hnot⟩
  simp only [decide_eq_true_eq] at hpc hnot
  rw [hpc] at hnot
  exact absurd hc hnot

/-! ### The derived label survives both imputation passes unchanged -/

theorem riskVal_numOrNan (q : Option ℚ) (v : Val) : (riskVal q v).numOrNan = true := by
  unfold riskVal
  split <;> rfl

theorem fillNan_riskVal (m q : Option ℚ) (v : Val) :
    fillNan m (riskVal q v) = riskVal q v := by
  unfold riskVal
  split <;> cases m <;> rfl

theorem unknownVal_riskVal (q : Option ℚ) (v : Val) :
    unknownVal (riskVal q v) = riskVal q v := by
  unfold riskVal
  split <;> rfl

/-- Lines 69-72 end-to-end: the `claim_risk` column of the preprocessed data
is exactly the raw claim-amount column mapped through the raw-quantile
threshold test - neither `fillna` pass alters it. -/
theorem preprocess_claim_risk (df : Df) :
    getCol? (preprocess df) "claim_risk" =
      some ((getColD df "claim_amount_SZL").map
        (riskVal (quantile75 (numsOf (getColD df "claim_amount_SZL"))))) := by
  unfold preprocess fillnaUnknown fillnaMedian
  rw [getCol?_mapVals, getCol?_mapVals]
  unfold deriveClaimRisk
  rw [getCol?_setCol_self]
  have hnum : isNumericSeries
      ((getColD df "claim_amount_SZL").map
        (riskVal (quantile75 (numsOf (getColD df "claim_amount_SZL"))))) = true := by
    simp only [isNumericSeries, List.all_eq_true]
    intro v hv
    rcases List.mem_map.mp hv with ⟨w, _, hw⟩
    rw [← hw]
    exact riskVal_numOrNan _ _
  simp only [Option.map_some']
  rw [if_pos hnum]
  rw [List.map_map, List.map_map]
  congr 1
  apply List.map_congr_left
  intro a _
  simp [Function.comp, fillNan_riskVal, unknownVal_riskVal]

theorem geOptVal_iff (v : Val) (q : Option ℚ) :
    geOptVal v q = true ↔ ∃ a b, v = Val.num a ∧ q = some b ∧ b ≤ a := by
  cases v <;> cases q <;> simp [geOptVal]

/-- Claim C1: for every dataset, the derived `claim_risk` of a record is 1
iff its raw `claim_amount_SZL` is at least the 0.75 quantile of the raw
claim-amount column (and 0 otherwise); the threshold and the compared value
both come from the raw column, before the median and `'Unknown'` imputation
passes. -/
theorem claim_risk_iff_raw_quantile (df : Df) (i : ℕ) (v : Val)
    (hv : (getColD df "claim_amount_SZL")[i]? = some v) :
    ((getColD (preprocess df) "claim_risk")[i]? = some (Val.num 1) ↔
      ∃ a b, v = Val.num a ∧
        quantile75 (numsOf (getColD df "claim_amount_SZL")) = some b ∧ b ≤ a) ∧
    ((getColD (preprocess df) "claim_risk")[i]? = some (Val.num 0) ↔
      ¬ ∃ a b, v = Val.num a ∧
        quantile75 (numsOf (getColD df "claim_amount_SZL")) = some b ∧ b ≤ a) := by
  have hcol : getColD (preprocess df) "claim_risk" =
      (getColD df "claim_amount_SZL").map
        (riskVal (quantile75 (numsOf (getColD df "claim_amount_SZL")))) := by
    unfold getColD
    rw [preprocess_claim_risk]
    rfl
  rw [hcol, List.getElem?_map, hv, Option.map_some']
  rw [← geOptVal_iff v (quantile75 (numsOf (getColD df "claim_amount_SZL")))]
  unfold riskVal
  cases hge : geOptVal v (quantile75 (numsOf (getColD df "claim_amount_SZL"))) with
  | true =>
    constructor
    · simp
    · constructor
      · intro hz
        simp at hz
      · intro hz
        exact absurd rfl hz
  | false =>
    constructor
    · constructor
      · intro hz
        simp at hz
      · intro hz
        exact absurd hz (by simp)
    · simp

/-- Concrete check of C1 on a two-row dataset (one missing amount, one
present at the quantile). -/
theorem claim_risk_iff_raw_quantile_check :
    ((getColD (preprocess (Df.mk 2 [("claim_amount_SZL", [Val.nan, Val.num 100])]))
        "claim_risk")[1]? = some (Val.num 1) ↔
      ∃ a b, (Val.num 100 : Val) = Val.num a ∧
        quantile75 (numsOf (getColD (Df.mk 2 [("claim_amount_SZL", [Val.nan, Val.num 100])])
          "claim_amount_SZL")) = some b ∧ b ≤ a) ∧
    ((getColD (preprocess (Df.mk 2 [("claim_amount_SZL", [Val.nan, Val.num 100])]))
        "claim_risk")[1]? = some (Val.num 0) ↔
      ¬ ∃ a b, (Val.num 100 : Val) = Val.num a ∧
        quantile75 (numsOf (getColD (Df.mk 2 [("claim_amount_SZL", [Val.nan, Val.num 100])])
          "claim_amount_SZL")) = some b ∧ b ≤ a) :=
  claim_risk_iff_raw_quantile (Df.mk 2 [("claim_amount_SZL", [Val.nan, Val.num 100])]) 1
    (Val.num 100) (by decide)

/-- Claim C8: a record whose raw `claim_amount_SZL` is missing always gets
label 0, because the label is derived from the raw column before the median
imputation and a missing value never compares `>=` the threshold. -/
theorem nan_amount_gets_label_zero (df : Df) (i : ℕ)
    (h : (getColD df "claim_amount_SZL")[i]? = some Val.nan) :
    (getColD (preprocess df) "claim_risk")[i]? = some (Val.num 0) := by
  have hcol : getColD (preprocess df) "claim_risk" =
      (getColD df "claim_amount_SZL").map
        (riskVal (quantile75 (numsOf (getColD df "claim_amount_SZL")))) := by
    unfold getColD
    rw [preprocess_claim_risk]
    rfl
  rw [hcol, List.getElem?_map, h]
  cases hq : quantile75 (numsOf (getColD df "claim_amount_SZL")) <;> rfl

/-- Concrete check of C8: the first row of the two-row dataset has a missing
amount and is labelled 0. -/
theorem nan_amount_gets_label_zero_check :
    (getColD (preprocess (Df.mk 2 [("claim_amount_SZL", [Val.nan, Val.num 100])]))
        "claim_risk")[0]? = some (Val.num 0) :=
  nan_amount_gets_label_zero (Df.mk 2 [("claim_amount_SZL", [Val.nan, Val.num 100])]) 0
    (by decide)

/-- Claim C2: the trained model is serialized iff positive-class recall
strictly exceeds 0.39; recall exactly 0.39 is not persisted, recall 0.40
is; the in-memory model is returned unchanged either way. -/
theorem persistence_gate_boundary {μ : Type} (model : μ) (r : ℚ) :
    ((evalAndPersist model r).1 = some model ↔ (39 : ℚ) / 100 < r) ∧
    (evalAndPersist model ((39 : ℚ) / 100)).1 = none ∧
    (evalAndPersist model ((40 : ℚ) / 100)).1 = some model ∧
    (evalAndPersist model r).2 = model := by
  refine ⟨?_, ?_, ?_, rfl⟩
  · unfold evalAndPersist
    by_cases h : (39 : ℚ) / 100 < r
    · simp [h]
    · simp [h]
  · simp [evalAndPersist]
  · norm_num [evalAndPersist]

/-! ### Schema alignment (lines 236-241) -/

theorem addMissing_nrows : ∀ (S : List String) (df : Df), (addMissing df S).nrows = df.nrows := by
  intro S
  induction S with
  | nil => intro df; rfl
  | cons a S' ih =>
    intro df
    show (addMissing (if hasCol df a then df
      else { nrows := df.nrows, cols := df.cols ++ [(a, List.replicate df.nrows (Val.num 0))] })
      S').nrows = df.nrows
    by_cases h : hasCol df a = true
    · rw [if_pos h]; exact ih df
    · rw [if_neg h]; exact ih _

theorem hasCol_append_single (df : Df) (a c : String) (vs : List Val) :
    hasCol { nrows := df.nrows, cols := df.cols ++ [(a, vs)] } c =
      (hasCol df c || decide (a = c)) := by
  unfold hasCol
  simp [List.any_append]

theorem hasCol_addMissing_of_hasCol :
    ∀ (S : List String) (df : Df) (c : String), hasCol df c = true →
      hasCol (addMissing df S) c = true := by
  intro S
  induction S with
  | nil => intro df c h; exact h
  | cons a S' ih =>
    intro df c h
    show hasCol (addMissing (if hasCol df a then df
      else { nrows := df.nrows, cols := df.cols ++ [(a, List.replicate df.nrows (Val.num 0))] })
      S') c = true
    by_cases ha : hasCol df a = true
    · rw [if_pos ha]; exact ih df c h
    · rw [if_neg ha]
      apply ih
      rw [hasCol_append_single, h, Bool.true_or]

theorem addMissing_eq_self :
    ∀ (S : List String) (df : Df), (∀ c ∈ S, hasCol df c = true) → addMissing df S = df := by
  intro S
  induction S with
  | nil => intro df _; rfl
  | cons a S' ih =>
    intro df h
    show addMissing (if hasCol df a then df
      else { nrows := df.nrows, cols := df.cols ++ [(a, List.replicate df.nrows (Val.num 0))] })
      S' = df
    rw [if_pos (h a (List.mem_cons_self a S'))]
    exact ih df (fun c hc => h c (List.mem_cons_of_mem a hc))

theorem getCol?_isSome_of_hasCol (df : Df) (c : String) (h : hasCol df c = true) :
    ∃ u, getCol? df c = some u := by
  unfold getCol?
  rcases List.any_eq_true.mp h with ⟨p, hp, hpc⟩
  have : (df.cols.find? (fun p => decide (p.1 = c))).isSome := by
    rw [List.find?_isSome]
    exact ⟨p, hp, hpc⟩
  rcases Option.isSome_iff_exists.mp this with ⟨entry, hf⟩
  exact ⟨entry.2, by rw [hf]; rfl⟩

theorem getCol?_append_single_of_hasCol (df : Df) (a c : String) (vs : List Val)
    (h : hasCol df c = true) :
    getCol? { nrows := df.nrows, cols := df.cols ++ [(a, vs)] } c = getCol? df c := by
  unfold getCol?
  simp only []
  rw [List.find?_append]
  rcases getCol?_isSome_of_hasCol df c h with ⟨u, hu⟩
  unfold getCol? at hu
  cases hf : df.cols.find? (fun p => decide (p.1 = c)) with
  | none => rw [hf] at hu; simp at hu
  | some entry => rw [Option.or_some]

theorem getCol?_addMissing_of_hasCol :
    ∀ (S : List String) (df : Df) (c : String), hasCol df c = true →
      getCol? (addMissing df S) c = getCol? df c := by
  intro S
  induction S with
  | nil => intro df c _; rfl
  | cons a S' ih =>
    intro df c h
    show getCol? (addMissing (if hasCol df a then df
      else { nrows := df.nrows, cols := df.cols ++ [(a, List.replicate df.nrows (Val.num 0))] })
      S') c = getCol? df c
    by_cases ha : hasCol df a = true
    · rw [if_pos ha]; exact ih df c h
    · rw [if_neg ha]
      rw [ih _ c (by rw [hasCol_append_single, h, Bool.true_or])]
      exact getCol?_append_single_of_hasCol df a c _ h

theorem getCol?_append_single_self (df : Df) (a : String) (vs : List Val)
    (h : hasCol df a = false) :
    getCol? { nrows := df.nrows, cols := df.cols ++ [(a, vs)] } a = some vs := by
  unfold getCol?
  simp only []
  rw [List.find?_append]
  have hnone : df.cols.find? (fun p => decide (p.1 = a)) = none := by
    rw [List.find?_eq_none]
    intro x hx
    simp only [Bool.not_eq_true, decide_eq_false_iff_not]
    intro hxa
    rw [Bool.eq_false_iff] at h
    exact h (List.any_eq_true.mpr ⟨x, hx, by simp [hxa]⟩)
  rw [hnone, Option.none_or]
  simp

theorem getCol?_addMissing_of_missing :
    ∀ (S : List String) (df : Df) (c : String), hasCol df c = false → c ∈ S →
      getCol? (addMissing df S) c = some (List.replicate df.nrows (Val.num 0)) := by
  intro S
  induction S with
  | nil => intro df c _ hc; exact absurd hc (List.not_mem_nil c)
  | cons a S' ih =>
    intro df c h hc
    show getCol? (addMissing (if hasCol df a then df
      else { nrows := df.nrows, cols := df.cols ++ [(a, List.replicate df.nrows (Val.num 0))] })
      S') c = some (List.replicate df.nrows (Val.num 0))
    by_cases hac : a = c
    · subst hac
      rw [if_neg (by rw [h]; exact fun hf => Bool.noConfusion hf)]
      rw [getCol?_addMissing_of_hasCol S' _ a (by rw [hasCol_append_single, h]; simp)]
      exact getCol?_append_single_self df a _ h
    · have hcS' : c ∈ S' := by
        rcases List.mem_cons.mp hc with h1 | h1
        · exact absurd h1.symm hac
        · exact h1
      by_cases ha : hasCol df a = true
      · rw [if_pos ha]; exact ih df c h hcS'
      · rw [if_neg ha]
        have h' : hasCol
            (Df.mk df.nrows (df.cols ++ [(a, List.replicate df.nrows (Val.num 0))])) c
              = false := by
          rw [hasCol_append_single, h]
          simp [hac]
        exact ih _ c h' hcS'

theorem getCol?_selectCols_of_mem (df : Df) :
    ∀ (S : List String) (c : String), c ∈ S →
      getCol? (selectCols df S) c = some (getColD df c) := by
  intro S
  induction S with
  | nil => intro c hc; exact absurd hc (List.not_mem_nil c)
  | cons a S' ih =>
    intro c hc
    unfold selectCols getCol?
    simp only [List.map_cons]
    by_cases hac : a = c
    · subst hac
      rw [List.find?_cons_of_pos _ (by simp)]
      rfl
    · rw [List.find?_cons_of_neg _ (by simp [hac])]
      have := ih c (by rcases List.mem_cons.mp hc with h1 | h1; exact absurd h1.symm hac; exact h1)
      unfold selectCols getCol? at this
      exact this

theorem keys_selectCols (df : Df) (S : List String) : keys (selectCols df S) = S := by
  unfold keys selectCols
  simp only [List.map_map]
  have hcomp : (Prod.fst ∘ fun c : String => (c, getColD df c)) = id := rfl
  rw [hcomp, List.map_id]

theorem hasCol_iff_mem_keys (df : Df) (c : String) : hasCol df c = true ↔ c ∈ keys df := by
  unfold hasCol keys
  rw [List.any_eq_true]
  constructor
  · rintro ⟨p, hp, hpc⟩
    simp only [decide_eq_true_eq] at hpc
    exact hpc ▸ List.mem_map_of_mem Prod.fst hp
  · intro hc
    rcases List.mem_map.mp hc with ⟨p, hp, hpc⟩
    exact ⟨p, hp, by simp [hpc]⟩

theorem getColD_align_of_mem (df : Df) (S : List String) (c : String) (hc : c ∈ S) :
    getColD (align df S) c = getColD (addMissing df S) c := by
  unfold getColD
  rw [show align df S = selectCols (addMissing df S) S from rfl,
    getCol?_selectCols_of_mem (addMissing df S) S c hc]
  rfl

/-- Claim C4: schema alignment is idempotent:
`align(align(X, S), S) = align(X, S)` for every record set and schema. -/
theorem align_idempotent (df : Df) (S : List String) : align (align df S) S = align df S := by
  have hall : ∀ c ∈ S, hasCol (align df S) c = true := by
    intro c hc
    rw [hasCol_iff_mem_keys]
    show c ∈ keys (selectCols (addMissing df S) S)
    rw [keys_selectCols]
    exact hc
  have h1 : align (align df S) S = selectCols (align df S) S := by
    show selectCols (addMissing (align df S) S) S = selectCols (align df S) S
    rw [addMissing_eq_self S (align df S) hall]
  rw [h1]
  have hcols : S.map (fun c => (c, getColD (align df S) c)) =
      S.map (fun c => (c, getColD (addMissing df S) c)) :=
    List.map_congr_left (fun c hc => by rw [getColD_align_of_mem df S c hc])
  show Df.mk (align df S).nrows (S.map (fun c => (c, getColD (align df S) c))) = align df S
  rw [hcols]
  rfl

theorem wf_append_single (df : Df) (a : String) :
    Df.WF df →
      Df.WF { nrows := df.nrows, cols := df.cols ++ [(a, List.replicate df.nrows (Val.num 0))] } := by
  intro h p hp
  rcases List.mem_append.mp hp with h1 | h1
  · exact h p h1
  · rcases List.mem_singleton.mp h1 with rfl
    simp

theorem wf_addMissing : ∀ (S : List String) (df : Df), Df.WF df → Df.WF (addMissing df S) := by
  intro S
  induction S with
  | nil => intro df h; exact h
  | cons a S' ih =>
    intro df h
    show Df.WF (addMissing (if hasCol df a then df
      else { nrows := df.nrows, cols := df.cols ++ [(a, List.replicate df.nrows (Val.num 0))] })
      S')
    by_cases ha : hasCol df a = true
    · rw [if_pos ha]; exact ih df h
    · rw [if_neg ha]; exact ih _ (wf_append_single df a h)

theorem length_getColD_of_wf (df : Df) (c : String) (h : Df.WF df) :
    (getColD df c).length = df.nrows := by
  unfold getColD getCol?
  cases hf : df.cols.find? (fun p => decide (p.1 = c)) with
  | none => simp
  | some entry =>
    have hmem := List.mem_of_find?_eq_some hf
    simpa using h entry hmem

/-- Claim C5: for every record set and target schema `S`, the aligned result
has exactly the columns of `S` in the order of `S`, the same number of rows,
every column well-formed; a named column of `S` carries the input's values
when the input has it and an all-zero column otherwise. -/
theorem align_shape_and_values (df : Df) (S : List String) (c : String)
    (hc : c ∈ S) (hwf : Df.WF df) :
    keys (align df S) = S ∧ (align df S).nrows = df.nrows ∧ Df.WF (align df S) ∧
      getColD (align df S) c =
        (if hasCol df c = true then getColD df c
         else List.replicate df.nrows (Val.num 0)) := by
  refine ⟨keys_selectCols (addMissing df S) S, addMissing_nrows S df, ?_, ?_⟩
  · intro p hp
    rcases List.mem_map.mp hp with ⟨c', hc', hpc⟩
    rw [← hpc]
    show (getColD (addMissing df S) c').length = (align df S).nrows
    rw [length_getColD_of_wf _ _ (wf_addMissing S df hwf)]
    rfl
  · rw [getColD_align_of_mem df S c hc]
    by_cases h : hasCol df c = true
    · rw [if_pos h]
      unfold getColD
      rw [getCol?_addMissing_of_hasCol S df c h]
      rcases getCol?_isSome_of_hasCol df c h with ⟨u, hu⟩
      rw [hu]
      rfl
    · rw [if_neg h]
      unfold getColD
      rw [getCol?_addMissing_of_missing S df c (Bool.eq_false_iff.mpr h) hc]
      rfl

/-- Concrete check of C5 on a one-row record set aligned to a two-column
schema, one column present and one absent. -/
theorem align_shape_and_values_check :
    keys (align (Df.mk 1 [("a", [Val.num 5]), ("b", [Val.str "x"])]) ["b", "zz"]) = ["b", "zz"] ∧
    (align (Df.mk 1 [("a", [Val.num 5]), ("b", [Val.str "x"])]) ["b", "zz"]).nrows = 1 ∧
    Df.WF (align (Df.mk 1 [("a", [Val.num 5]), ("b", [Val.str "x"])]) ["b", "zz"]) ∧
    getColD (align (Df.mk 1 [("a", [Val.num 5]), ("b", [Val.str "x"])]) ["b", "zz"]) "b" =
      (if hasCol (Df.mk 1 [("a", [Val.num 5]), ("b", [Val.str "x"])]) "b" = true
       then getColD (Df.mk 1 [("a", [Val.num 5]), ("b", [Val.str "x"])]) "b"
       else List.replicate 1 (Val.num 0)) :=
  align_shape_and_values (Df.mk 1 [("a", [Val.num 5]), ("b", [Val.str "x"])]) ["b", "zz"] "b"
    (by decide) (by unfold Df.WF; decide)

/-! ### Class balancing (lines 99-106) -/

theorem resampleWith_length (pick : ℕ → ℕ) (n : ℕ) (xs : List (List Val × ℕ)) :
    (resampleWith pick n xs).length = n := by
  unfold resampleWith
  rw [List.length_map, List.length_range]

theorem resampleWith_mem (pick : ℕ → ℕ) (n : ℕ) (xs : List (List Val × ℕ))
    (hne : xs ≠ []) (r : List Val × ℕ) (hr : r ∈ resampleWith pick n xs) : r ∈ xs := by
  unfold resampleWith at hr
  rcases List.mem_map.mp hr with ⟨i, _, hi⟩
  rw [← hi]
  have hlt : pick i % xs.length < xs.length :=
    Nat.mod_lt _ (List.length_pos.mpr hne)
  rw [List.getD_eq_getElem?_getD, List.getElem?_eq_getElem hlt]
  exact List.getElem_mem hlt

theorem mem_majorityRows_label (td : List (List Val × ℕ)) (r : List Val × ℕ)
    (hr : r ∈ majorityRows td) : r.2 = 0 := by
  have := (List.mem_filter.mp hr).2
  simpa using this

theorem mem_minorityRows_label (td : List (List Val × ℕ)) (r : List Val × ℕ)
    (hr : r ∈ minorityRows td) : r.2 = 1 := by
  have := (List.mem_filter.mp hr).2
  simpa using this

/-- Claim C3: the balanced training set has as many label-0 rows as label-1
rows, and every label-1 row of it is value-identical to some row of the
original minority portion - oversampling fabricates no new rows. -/
theorem balanced_counts_and_rows (pick : ℕ → ℕ) (td : List (List Val × ℕ))
    (hpos : minorityRows td ≠ []) :
    ((balanceTrainData pick td).filter (fun r => decide (r.2 = 0))).length =
      ((balanceTrainData pick td).filter (fun r => decide (r.2 = 1))).length ∧
    ∀ r ∈ balanceTrainData pick td, r.2 = 1 → r ∈ minorityRows td := by
  constructor
  · unfold balanceTrainData
    rw [List.filter_append, List.filter_append, List.length_append, List.length_append]
    have hmaj0 : (majorityRows td).filter (fun r => decide (r.2 = 0)) = majorityRows td :=
      List.filter_eq_self.mpr (fun r hr => by
        simp [mem_majorityRows_label td r hr])
    have hmaj1 : (majorityRows td).filter (fun r => decide (r.2 = 1)) = [] :=
      List.filter_eq_nil_iff.mpr (fun r hr => by
        simp [mem_majorityRows_label td r hr])
    have hov0 : (resampleWith pick (majorityRows td).length (minorityRows td)).filter
        (fun r => decide (r.2 = 0)) = [] :=
      List.filter_eq_nil_iff.mpr (fun r hr => by
        have := mem_minorityRows_label td r
          (resampleWith_mem pick _ (minorityRows td) hpos r hr)
        simp [this])
    have hov1 : (resampleWith pick (majorityRows td).length (minorityRows td)).filter
        (fun r => decide (r.2 = 1)) =
          resampleWith pick (majorityRows td).length (minorityRows td) :=
      List.filter_eq_self.mpr (fun r hr => by
        have := mem_minorityRows_label td r
          (resampleWith_mem pick _ (minorityRows td) hpos r hr)
        simp [this])
    rw [hmaj0, hmaj1, hov0, hov1, resampleWith_length]
    simp
  · intro r hr hr1
    rcases List.mem_append.mp hr with h | h
    · have := mem_majorityRows_label td r h
      rw [this] at hr1
      exact absurd hr1 (by norm_num)
    · exact resampleWith_mem pick _ (minorityRows td) hpos r h

/-- Concrete check of C3 on a two-row training split with one row of each
label and the identity draw sequence. -/
theorem balanced_counts_and_rows_check :
    ((balanceTrainData (fun i => i) [([], 0), ([Val.num 5], 1)]).filter
        (fun r => decide (r.2 = 0))).length =
      ((balanceTrainData (fun i => i) [([], 0), ([Val.num 5], 1)]).filter
        (fun r => decide (r.2 = 1))).length ∧
    ∀ r ∈ balanceTrainData (fun i => i) [([], 0), ([Val.num 5], 1)], r.2 = 1 →
      r ∈ minorityRows [([], 0), ([Val.num 5], 1)] :=
  balanced_counts_and_rows (fun i => i) [([], 0), ([Val.num 5], 1)] (by decide)

/-- Claim C6: the balancing stage leaves the held-out evaluation split
untouched - its rows, values and row count are identical before and after. -/
theorem balancing_preserves_test_split (pick : ℕ → ℕ) (s : SplitState) :
    (balanceStage pick s).Xtest = s.Xtest ∧ (balanceStage pick s).ytest = s.ytest ∧
    (balanceStage pick s).Xtest.length = s.Xtest.length ∧
    (balanceStage pick s).ytest.length = s.ytest.length :=
  ⟨rfl, rfl, rfl, rfl⟩

/-- Claim C9: the supervised feature matrix (line 97) contains neither the
`claim_amount_SZL` column nor the `claim_risk` column, for every input
dataset and every seeded clustering/parsing component. -/
theorem supervised_matrix_excludes_amount_and_label (parse : Val → ℚ × ℚ × ℚ)
    (km : Df → List ℕ) (df : Df) :
    hasCol (supervisedX parse km df) "claim_amount_SZL" = false ∧
    hasCol (supervisedX parse km df) "claim_risk" = false :=
  ⟨not_hasCol_dropCols _ _ _ (by simp), not_hasCol_dropCols _ _ _ (by simp)⟩

/-! ### The clustering feature space (lines 85-88) -/

theorem getCol?_dropCols_not_mem (df : Df) (names : List String) (c : String)
    (hn : c ∉ names) : getCol? (dropCols df names) c = getCol? df c := by
  cases h : getCol? df c with
  | some u => rw [getCol?_dropCols df names c u h hn]
  | none =>
    unfold getCol? at h ⊢
    cases hf : df.cols.find? (fun p => decide (p.1 = c)) with
    | some entry => rw [hf] at h; simp at h
    | none =>
      have hnone : (dropCols df names).cols.find? (fun p => decide (p.1 = c)) = none := by
        rw [List.find?_eq_none] at hf ⊢
        intro x hx
        exact hf x (List.mem_of_mem_filter hx)
      rw [hnone]
      rfl

theorem getCol?_processDateCol_ne (parse : Val → ℚ × ℚ × ℚ) (dc : String) (df : Df)
    (c : String) (h1 : c ≠ dc ++ "_year") (h2 : c ≠ dc ++ "_month")
    (h3 : c ≠ dc ++ "_day") (h4 : c ∉ [dc]) :
    getCol? (processDateCol parse dc df) c = getCol? df c := by
  unfold processDateCol
  by_cases h : hasCol df dc = true
  · rw [if_pos h]
    unfold dateDerivedCols
    rw [getCol?_dropCols_not_mem _ _ _ h4, getCol?_setCol_ne _ _ _ _ h3,
      getCol?_setCol_ne _ _ _ _ h2, getCol?_setCol_ne _ _ _ _ h1]
  · rw [if_neg h]

theorem getCol?_dateStage_amount (parse : Val → ℚ × ℚ × ℚ) (df : Df) :
    getCol? (dateStage parse df) "claim_amount_SZL" = getCol? df "claim_amount_SZL" := by
  unfold dateStage
  rw [getCol?_processDateCol_ne parse "claim_date" _ _ (by decide) (by decide) (by decide)
    (by decide),
    getCol?_processDateCol_ne parse "policy_start_date" _ _ (by decide) (by decide) (by decide)
    (by decide)]

theorem medianQ_isSome (xs : List ℚ) (h : xs ≠ []) : ∃ m, medianQ xs = some m := by
  unfold medianQ
  have hlen : (sortQ xs).length = xs.length := List.length_insertionSort _ _
  have hne : ¬ ((sortQ xs).length = 0) := by
    rw [hlen]
    exact fun h0 => h (List.length_eq_zero.mp h0)
  rw [if_neg hne]
  by_cases hodd : (sortQ xs).length % 2 = 1
  · rw [if_pos hodd]
    exact ⟨_, rfl⟩
  · rw [if_neg hodd]
    exact ⟨_, rfl⟩

/-- The amount column after both imputation passes: missing cells are filled
with the column median, everything else passes through. -/
theorem getCol?_preprocess_amount (df : Df) (vs : List Val)
    (h1 : getCol? df "claim_amount_SZL" = some vs) (h2 : isNumericSeries vs = true) :
    getCol? (preprocess df) "claim_amount_SZL" =
      some ((vs.map (fillNan (medianQ (numsOf vs)))).map unknownVal) := by
  unfold preprocess fillnaUnknown fillnaMedian
  rw [getCol?_mapVals, getCol?_mapVals]
  unfold deriveClaimRisk
  rw [getCol?_setCol_ne _ _ _ _ (by decide), h1]
  simp only [Option.map_some']
  rw [if_pos h2]

theorem imputed_amount_id_and_numeric (vs : List Val) (m : ℚ)
    (h2 : isNumericSeries vs = true) :
    (vs.map (fillNan (some m))).map unknownVal = vs.map (fillNan (some m)) ∧
    isIntFloatSeries (vs.map (fillNan (some m))) = true := by
  have hnum : ∀ v ∈ vs, (fillNan (some m) v).isNum = true := by
    intro v hv
    have := List.all_eq_true.mp h2 v hv
    cases v with
    | num q => rfl
    | nan => rfl
    | str s => simp [Val.numOrNan, Val.isNum, Val.isNan, Val.isStr] at this
  constructor
  · rw [List.map_map]
    apply List.map_congr_left
    intro a ha
    have := hnum a ha
    cases hfa : fillNan (some m) a with
    | num q => simp [Function.comp, hfa, unknownVal, Val.isNan]
    | nan => rw [hfa] at this; simp [Val.isNum] at this
    | str s => rw [hfa] at this; simp [Val.isNum] at this
  · rw [isIntFloatSeries, List.all_eq_true]
    intro v hv
    rcases List.mem_map.mp hv with ⟨a, ha, hva⟩
    rw [← hva]
    exact hnum a ha

/-- The counterexample record set for C10: a single row whose numeric
claim-amount cell is missing. -/
def dfAllNan : Df := Df.mk 1 [("claim_amount_SZL", [Val.nan])]

def parse0 : Val → ℚ × ℚ × ℚ := fun _ => (0, 0, 0)

/-- Counterexample to C10 as stated: this dataset's `claim_amount_SZL`
column is numeric (all cells number-or-NaN, a float64 column), yet the
clustering feature space does not contain it - the all-missing column
stays `NaN` after the median pass (the median of no values is missing),
becomes the string `'Unknown'`, and so is no longer of numeric dtype when
`select_dtypes` builds the clustering feature space. -/
theorem segment_space_counterexample :
    getCol? dfAllNan "claim_amount_SZL" = some [Val.nan] ∧
    isNumericSeries [Val.nan] = true ∧
    hasCol (Xsegment (dateStage parse0 (preprocess dfAllNan))) "claim_amount_SZL" = false := by
  refine ⟨rfl, rfl, ?_⟩
  decide

/-- Claim C10 (amended): for every dataset whose `claim_amount_SZL` column
is numeric and has at least one present value, the clustering feature space
contains the claim-amount column, does not contain `claim_risk`, and every
present raw amount reaches the clustering unchanged. -/
theorem segment_space_contains_amount (parse : Val → ℚ × ℚ × ℚ) (df : Df) (vs : List Val)
    (h1 : getCol? df "claim_amount_SZL" = some vs)
    (h2 : isNumericSeries vs = true)
    (h3 : numsOf vs ≠ []) :
    hasCol (Xsegment (dateStage parse (preprocess df))) "claim_amount_SZL" = true ∧
    hasCol (Xsegment (dateStage parse (preprocess df))) "claim_risk" = false ∧
    ∀ (i : ℕ) (a : ℚ), vs[i]? = some (Val.num a) →
      (getColD (Xsegment (dateStage parse (preprocess df))) "claim_amount_SZL")[i]? =
        some (Val.num a) := by
  rcases medianQ_isSome (numsOf vs) h3 with ⟨m, hm⟩
  rcases imputed_amount_id_and_numeric vs m h2 with ⟨hid, hnum⟩
  have hpre : getCol? (preprocess df) "claim_amount_SZL" =
      some (vs.map (fillNan (some m))) := by
    rw [getCol?_preprocess_amount df vs h1 h2, hm, hid]
  have hdate : getCol? (dateStage parse (preprocess df)) "claim_amount_SZL" =
      some (vs.map (fillNan (some m))) := by
    rw [getCol?_dateStage_amount, hpre]
  have hseg : getCol? (Xsegment (dateStage parse (preprocess df))) "claim_amount_SZL" =
      some (vs.map (fillNan (some m))) := by
    unfold Xsegment numericSel
    apply getCol?_dropCols _ _ _ _ _ (by simp)
    exact getCol?_filterCols _ _ _ _ hdate (by simpa using hnum)
  refine ⟨hasCol_of_getCol?_eq_some _ _ _ hseg,
    not_hasCol_dropCols _ _ _ (by simp), ?_⟩
  intro i a hia
  unfold getColD
  rw [hseg]
  simp only [Option.getD_some]
  rw [List.getElem?_map, hia]
  rfl

/-- Concrete check of the amended C10 on a two-row dataset with one present
and one missing amount. -/
theorem segment_space_contains_amount_check :
    hasCol (Xsegment (dateStage parse0
      (preprocess (Df.mk 2 [("claim_amount_SZL", [Val.num 3, Val.nan])]))))
      "claim_amount_SZL" = true ∧
    hasCol (Xsegment (dateStage parse0
      (preprocess (Df.mk 2 [("claim_amount_SZL", [Val.num 3, Val.nan])]))))
      "claim_risk" = false ∧
    (getColD (Xsegment (dateStage parse0
      (preprocess (Df.mk 2 [("claim_amount_SZL", [Val.num 3, Val.nan])]))))
      "claim_amount_SZL")[0]? = some (Val.num 3) := by
  have h := segment_space_contains_amount parse0
    (Df.mk 2 [("claim_amount_SZL", [Val.num 3, Val.nan])]) [Val.num 3, Val.nan]
    (by decide) (by decide) (by decide)
  exact ⟨h.1, h.2.1, h.2.2 0 3 (by decide)⟩

/-! ### Determinism of the seeded pipeline (lines 85-122) -/

def km0 : Df → List ℕ := fun d => List.replicate d.nrows 0

def mask0 : ℕ → List Bool := fun n => List.replicate n false

def pick0 : ℕ → ℕ := fun i => i

def trainPredict0 : List (List Val × ℕ) → List (List Val) → List ℕ :=
  fun _ te => te.map (fun _ => 0)

def dfW : Df :=
  Df.mk 2 [("claim_amount_SZL", [Val.num 3, Val.num 10]), ("loc", [Val.str "a", Val.str "b"])]

/-- Claim C7: with all stochastic components fixed by their seeds (the
clustering fit, the train/test split mask, the oversampling draws and the
forest training), two runs of the pipeline on the same input produce the
same encoded column schema and the same evaluation recall. -/
theorem pipeline_deterministic (parse : Val → ℚ × ℚ × ℚ) (km : Df → List ℕ)
    (mask : ℕ → List Bool) (pick : ℕ → ℕ)
    (trainPredict : List (List Val × ℕ) → List (List Val) → List ℕ) (df : Df)
    (r1 r2 : PipelineOut)
    (h1 : r1 = runPipeline parse km mask pick trainPredict df)
    (h2 : r2 = runPipeline parse km mask pick trainPredict df) :
    r1.schema = r2.schema ∧ r1.recallClass1 = r2.recallClass1 := by
  subst h1
  subst h2
  exact ⟨rfl, rfl⟩

/-- Concrete check of C7: two runs with the same fixed components on a
two-row dataset agree on schema and recall. -/
theorem pipeline_deterministic_check :
    (runPipeline parse0 km0 mask0 pick0 trainPredict0 dfW).schema =
      (runPipeline parse0 km0 mask0 pick0 trainPredict0 dfW).schema ∧
    (runPipeline parse0 km0 mask0 pick0 trainPredict0 dfW).recallClass1 =
      (runPipeline parse0 km0 mask0 pick0 trainPredict0 dfW).recallClass1 :=
  pipeline_deterministic parse0 km0 mask0 pick0 trainPredict0 dfW _ _ rfl rfl

end InsuranceDashboard
